import Mathlib

/-!
# Verification of the scholarship eligibility-matching engine

Shallow embedding of the core logic of the scholarship-discovery portal:
the income normalizer (`parseIncome`), the age calculator (`calculateAge`),
the per-scholarship eligibility evaluator and the ranking pipeline of the
`/api/check-eligibility` route.  The route body in `server.js` (lines
620-839) and the copy in `routes/eligibility.js` (lines 105-343) are
line-for-line identical in logic; the embedding below models that single
algorithm.

Modelling conventions:
* JavaScript numbers are modelled by `JSNum`: an exact rational, `NaN`,
  or positive infinity.  Float rounding and overflow are abstracted to
  exact rational arithmetic (all quantities reachable in the claims are
  small integers or small decimal fractions, far from any double-precision
  boundary).  Negative infinity is unreachable: `parseFloat` is only ever
  applied to strings containing no hyphen (the range branch splits on the
  hyphen first and its pieces are hyphen-free; the unit branches strip to
  digits and dots), so no minus sign ever reaches it.
* `Date` values are modelled in two forms, matching their two uses:
  calendar components (`SimpleDate`) for `getFullYear/getMonth/getDate`
  in the age computation, and epoch milliseconds (`Int`) for the `<`
  comparison in the deadline check.  The system clock (`new Date()`) is
  injected as an explicit `Clock` parameter.
* Display-only string fields built with `toLocaleString` or template
  strings (`required`, `userValue`, the formatted income of the profile
  snapshot, and the descriptive scholarship fields echoed in the result)
  are locale-dependent presentation and are not referenced by any claim;
  they are omitted from the embedded records, which keep the fields the
  claims speak about.
-/

/-- A JavaScript number as produced by the income/CGPA pipeline: a finite
value (exact rational), `NaN`, or `Infinity`. -/
inductive JSNum where
  | fin (q : ℚ)
  | nan
  | inf
deriving DecidableEq

namespace JSNum

/-- JS addition, as used on the two sides of an income range. -/
def add : JSNum → JSNum → JSNum
  | nan, _ => nan
  | _, nan => nan
  | inf, _ => inf
  | _, inf => inf
  | fin a, fin b => fin (a + b)

/-- JS division by 2 (taking the average of a range). -/
def half : JSNum → JSNum
  | nan => nan
  | inf => inf
  | fin a => fin (a / 2)

/-- JS multiplication by a positive literal constant (the lakh/crore
unit factors). -/
def mulc : JSNum → ℚ → JSNum
  | nan, _ => nan
  | inf, _ => inf
  | fin a, c => fin (a * c)

/-- The JS idiom `x || 0`: `NaN` (and `0` itself) are falsy and give `0`;
every other numeric value passes through. -/
def orZero : JSNum → JSNum
  | nan => fin 0
  | fin a => fin a
  | inf => inf

/-- JS `x < q` against a finite threshold: false when `x` is `NaN` or
`Infinity`. -/
def ltq : JSNum → ℚ → Bool
  | fin a, q => decide (a < q)
  | nan, _ => false
  | inf, _ => false

/-- JS `x > q` against a finite threshold: false for `NaN`, true for
`Infinity`. -/
def gtq : JSNum → ℚ → Bool
  | fin a, q => decide (a > q)
  | nan, _ => false
  | inf, _ => true

end JSNum

/-- Numeric value of a decimal-digit character. -/
def digVal (c : Char) : ℕ := c.toNat - 48

/-- Value of a digit string read as a natural number. -/
def digitsToNat (l : List Char) : ℕ := l.foldl (fun a c => 10 * a + digVal c) 0

/-- Value of a fractional digit string: `digits / 10 ^ length`. -/
def fracVal (l : List Char) : ℚ := (digitsToNat l : ℚ) / (10 : ℚ) ^ l.length

/-- Parse the longest decimal-mantissa prefix (`Digits ['.' Digits?] |
'.' Digits`) of a character list; returns the value and the remaining
characters, or `none` when no mantissa is present. -/
def parseMantissa (l : List Char) : Option ℚ × List Char :=
  let ip := l.takeWhile Char.isDigit
  let r1 := l.dropWhile Char.isDigit
  match ip, r1 with
  | [], '.' :: r2 =>
      let fp := r2.takeWhile Char.isDigit
      if fp = [] then (none, l)
      else (some (fracVal fp), r2.dropWhile Char.isDigit)
  | [], _ => (none, l)
  | _, '.' :: r2 =>
      let fp := r2.takeWhile Char.isDigit
      (some ((digitsToNat ip : ℚ) + fracVal fp), r2.dropWhile Char.isDigit)
  | _, _ => (some (digitsToNat ip : ℚ), r1)

/-- Parse an optional exponent part (`[eE] [+-]? Digits`) at the head of
the remainder; an ill-formed exponent is not consumed (JS `parseFloat`
keeps the longest valid prefix, so `"5e"` parses as `5`). -/
def parseExponent (l : List Char) : ℤ :=
  match l with
  | 'e' :: rest | 'E' :: rest =>
    match rest with
    | '+' :: ds => if ds.takeWhile Char.isDigit = [] then 0
                   else (digitsToNat (ds.takeWhile Char.isDigit) : ℤ)
    | '-' :: ds => if ds.takeWhile Char.isDigit = [] then 0
                   else -(digitsToNat (ds.takeWhile Char.isDigit) : ℤ)
    | ds => if ds.takeWhile Char.isDigit = [] then 0
            else (digitsToNat (ds.takeWhile Char.isDigit) : ℤ)
  | _ => 0

/-- JS `parseFloat` on a character list, for the hyphen-free strings that
reach it inside `parseIncome` (an optional leading `+`, the `Infinity`
literal, or a decimal literal with optional exponent; anything else is
`NaN`).  Exact rational semantics; see the module comment. -/
def jsParseFloatL (l : List Char) : JSNum :=
  let l1 := match l with
    | '+' :: r => r
    | _ => l
  if "Infinity".toList.isPrefixOf l1 then JSNum.inf
  else match parseMantissa l1 with
    | (none, _) => JSNum.nan
    | (some m, rest) => JSNum.fin (m * (10 : ℚ) ^ parseExponent rest)

/-- JS `parseFloat` on a string. -/
def jsParseFloat (s : String) : JSNum := jsParseFloatL s.toList

/-- Characters matched by the regex class `\s` (JS whitespace). -/
def isJsSpace (c : Char) : Bool :=
  c.toNat = 9 ∨ c.toNat = 10 ∨ c.toNat = 11 ∨ c.toNat = 12 ∨ c.toNat = 13 ∨
  c.toNat = 32 ∨ c.toNat = 160 ∨ c.toNat = 5760 ∨
  (8192 ≤ c.toNat ∧ c.toNat ≤ 8202) ∨ c.toNat = 8232 ∨ c.toNat = 8233 ∨
  c.toNat = 8239 ∨ c.toNat = 8287 ∨ c.toNat = 12288 ∨ c.toNat = 65279

/-- Substring test: does `sub` occur inside `l`? -/
def containsSub (l sub : List Char) : Bool :=
  l.tails.any (fun t => sub.isPrefixOf t)

/-- `incomeString.replace(/[₹,\s]/g, '')`: the cleaned character list. -/
def cleanIncome (s : String) : List Char :=
  s.toList.filter (fun c => !(c = '₹' || c = ',' || isJsSpace c))

/-- The income normalizer `parseIncome` (`server.js` lines 174-194,
identically `routes/eligibility.js` lines 75-102).  `!incomeString` is
true for a string exactly when it is empty; lowercasing is ASCII (the
substrings looked for are ASCII). -/
def parseIncome (s : String) : JSNum :=
  if s = "" then JSNum.fin 0
  else
    let clean := cleanIncome s
    if clean.contains '-' then
      let range0 := clean.takeWhile (fun c => c ≠ '-')
      let range1 := (((clean.dropWhile (fun c => c ≠ '-')).drop 1).takeWhile
        (fun c => c ≠ '-'))
      JSNum.half (JSNum.add (jsParseFloatL range0) (jsParseFloatL range1))
    else if containsSub (clean.map Char.toLower) "lakh".toList then
      JSNum.mulc (jsParseFloatL (clean.filter (fun c => c.isDigit || c = '.')))
        100000
    else if containsSub (clean.map Char.toLower) "crore".toList then
      JSNum.mulc (jsParseFloatL (clean.filter (fun c => c.isDigit || c = '.')))
        10000000
    else JSNum.orZero (jsParseFloatL clean)

/-- A calendar date as the triple of components the age computation reads
(`getFullYear`, `getMonth`, `getDate`); comparisons only ever involve the
same convention on both sides, so the 0-based/1-based month choice is
immaterial. -/
structure SimpleDate where
  year : ℤ
  month : ℤ
  day : ℤ
deriving DecidableEq

/-- The age calculator (`server.js` lines 162-172, identically
`routes/eligibility.js` lines 62-72), with `new Date()` injected as
`today`. -/
def calculateAge (dateOfBirth : Option SimpleDate) (today : SimpleDate) : ℤ :=
  match dateOfBirth with
  | none => 0
  | some birthDate =>
    let age := today.year - birthDate.year
    let monthDiff := today.month - birthDate.month
    if monthDiff < 0 ∨ (monthDiff = 0 ∧ today.day < birthDate.day) then age - 1
    else age

/-- One entry of the per-criterion trace (`eligibilityChecks`); the
display-only `required`/`userValue` strings are omitted (module comment). -/
structure Check where
  criterion : String
  passed : Bool
deriving DecidableEq

/-- The `eligibilityCriteria` subdocument of a scholarship, with the
mongoose defaults already applied (absent numeric fields default to
0/10, 0/999999999, 0/100; absent arrays to `[]`). -/
structure Criteria where
  minCgpa : ℚ
  maxCgpa : ℚ
  requiredEducation : List String
  requiredFields : List String
  maxFamilyIncome : ℚ
  minFamilyIncome : ℚ
  allowedGenders : List String
  allowedCategories : List String
  minAge : ℤ
  maxAge : ℤ
  allowedStates : List String
  allowedCities : List String
deriving DecidableEq

/-- A scholarship record as read by the route (identity plus the fields
the engine consults; deadline in epoch milliseconds). -/
structure Scholarship where
  id : ℕ
  title : String
  eligibilityCriteria : Criteria
  applicationDeadline : Option ℤ
  isActive : Bool
deriving DecidableEq

/-- The scholarship summary snapshot embedded in each result (identity
fields; the descriptive echo fields are display-only and omitted). -/
structure SchSnapshot where
  id : ℕ
  title : String
deriving DecidableEq

/-- One element of `eligibilityResults`. -/
structure EligResult where
  scholarship : SchSnapshot
  isEligible : Bool
  deadlineStatus : String
  eligibilityChecks : List Check
  matchPercentage : ℤ
deriving DecidableEq

/-- The user's stored profile.  Optional free-text fields are `String`
(the JS falsiness test `!s` on a string means `s = ""`); `dateOfBirth`
is an optional date. -/
structure Profile where
  fullName : String
  dateOfBirth : Option SimpleDate
  familyIncome : String
  cgpa : String
  currentEducation : String
  fieldOfStudy : String
  gender : String
  category : String
  isProfileComplete : Bool
deriving DecidableEq

/-- A user record (name plus optional profile subdocument). -/
structure User where
  name : String
  profile : Option Profile
deriving DecidableEq

/-- The injected system clock: calendar components for the age
computation, epoch milliseconds for the deadline comparison. -/
structure Clock where
  today : SimpleDate
  nowMs : ℤ
deriving DecidableEq

/-- The user's normalized values, computed once before the per-scholarship
loop (`userCgpa`, `userIncome`, `userAge` and the categorical strings). -/
structure NormProfile where
  cgpa : JSNum
  income : JSNum
  age : ℤ
  currentEducation : String
  fieldOfStudy : String
  gender : String
  category : String
deriving DecidableEq

/-- The normalized-profile echo of the response (`userProfile`); the
formatted income string is display-only, the numeric value is kept. -/
structure ProfileSnapshot where
  name : String
  cgpa : JSNum
  education : String
  field : String
  income : JSNum
  age : ℤ
  gender : String
  category : String
deriving DecidableEq

/-- The response of the `/api/check-eligibility` route: an HTTP error
(missing user), the incomplete-profile shape, or the ranked results. -/
inductive Response where
  | error (status : ℕ) (message : String)
  | incomplete (message : String) (eligibleScholarships : List EligResult)
      (incompleteProfile : Bool)
  | ranked (totalScholarships : ℕ) (eligibleScholarships : ℕ)
      (results : List EligResult) (userProfile : ProfileSnapshot)
deriving DecidableEq

/-- `Math.round`: round half away from zero is `⌊x + 1/2⌋` for the
non-negative values arising here (round half up). -/
def mathRound (q : ℚ) : ℤ := ⌊q + 1 / 2⌋

/-- The CGPA failure condition (`userCgpa < criteria.minCgpa || userCgpa >
criteria.maxCgpa`, `server.js` line 657). -/
def cgpaFailB (p : NormProfile) (c : Criteria) : Bool :=
  JSNum.ltq p.cgpa c.minCgpa || JSNum.gtq p.cgpa c.maxCgpa

/-- The CGPA check is always pushed, failed or passed (lines 656-672). -/
def cgpaCheckOf (p : NormProfile) (c : Criteria) : Check :=
  if cgpaFailB p c then ⟨"CGPA", false⟩ else ⟨"CGPA", true⟩

/-- `criteria.requiredEducation.length > 0` (the education criterion is
constrained). -/
def eduCons (c : Criteria) : Bool := !c.requiredEducation.isEmpty

/-- The education failure condition (line 675). -/
def eduFailB (p : NormProfile) (c : Criteria) : Bool :=
  eduCons c && !(c.requiredEducation.contains p.currentEducation)

/-- The education check block (lines 674-691): push failed, else push
passed when constrained, else push nothing. -/
def eduCheckOf (p : NormProfile) (c : Criteria) : Option Check :=
  if eduFailB p c then some ⟨"Education Level", false⟩
  else if eduCons c then some ⟨"Education Level", true⟩
  else none

/-- `criteria.requiredFields.length > 0`. -/
def fieldCons (c : Criteria) : Bool := !c.requiredFields.isEmpty

/-- The field-of-study failure condition (line 694). -/
def fieldFailB (p : NormProfile) (c : Criteria) : Bool :=
  fieldCons c && !(c.requiredFields.contains p.fieldOfStudy)

/-- The field-of-study check block (lines 693-710). -/
def fieldCheckOf (p : NormProfile) (c : Criteria) : Option Check :=
  if fieldFailB p c then some ⟨"Field of Study", false⟩
  else if fieldCons c then some ⟨"Field of Study", true⟩
  else none

/-- The income failure condition (`userIncome > criteria.maxFamilyIncome
|| userIncome < criteria.minFamilyIncome`, line 713). -/
def incomeFailB (p : NormProfile) (c : Criteria) : Bool :=
  JSNum.gtq p.income c.maxFamilyIncome || JSNum.ltq p.income c.minFamilyIncome

/-- The income check is always pushed (lines 712-728). -/
def incomeCheckOf (p : NormProfile) (c : Criteria) : Check :=
  if incomeFailB p c then ⟨"Family Income", false⟩ else ⟨"Family Income", true⟩

/-- `criteria.allowedGenders.length > 0 &&
!criteria.allowedGenders.includes('All')` (the gender criterion is
constrained), shared by both branches of the gender block. -/
def genderCons (c : Criteria) : Bool :=
  !c.allowedGenders.isEmpty && !(c.allowedGenders.contains "All")

/-- The gender failure condition (lines 731-733). -/
def genderFailB (p : NormProfile) (c : Criteria) : Bool :=
  genderCons c && !(c.allowedGenders.contains p.gender)

/-- The gender check block (lines 730-748). -/
def genderCheckOf (p : NormProfile) (c : Criteria) : Option Check :=
  if genderFailB p c then some ⟨"Gender", false⟩
  else if genderCons c then some ⟨"Gender", true⟩
  else none

/-- `criteria.allowedCategories.length > 0`. -/
def catCons (c : Criteria) : Bool := !c.allowedCategories.isEmpty

/-- The category failure condition (line 751). -/
def catFailB (p : NormProfile) (c : Criteria) : Bool :=
  catCons c && !(c.allowedCategories.contains p.category)

/-- The category check block (lines 750-767). -/
def catCheckOf (p : NormProfile) (c : Criteria) : Option Check :=
  if catFailB p c then some ⟨"Category", false⟩
  else if catCons c then some ⟨"Category", true⟩
  else none

/-- The age failure condition (`userAge < criteria.minAge || userAge >
criteria.maxAge`, line 770). -/
def ageFailB (p : NormProfile) (c : Criteria) : Bool :=
  decide (p.age < c.minAge) || decide (p.age > c.maxAge)

/-- The age check is always pushed (lines 769-785). -/
def ageCheckOf (p : NormProfile) (c : Criteria) : Check :=
  if ageFailB p c then ⟨"Age", false⟩ else ⟨"Age", true⟩

/-- The `checks` array after the seven criterion blocks have run: each
block appends its entries in program order, unconditionally of the
outcomes of the earlier blocks (lines 653-785). -/
def checksOf (p : NormProfile) (c : Criteria) : List Check :=
  [cgpaCheckOf p c] ++ (eduCheckOf p c).toList ++ (fieldCheckOf p c).toList ++
    [incomeCheckOf p c] ++ (genderCheckOf p c).toList ++
    (catCheckOf p c).toList ++ [ageCheckOf p c]

/-- The deadline-expiry condition (`scholarship.applicationDeadline &&
scholarship.applicationDeadline < now`, line 790); a `Date` object is
always truthy, so the test is presence plus strict comparison. -/
def expiredB (s : Scholarship) (nowMs : ℤ) : Bool :=
  match s.applicationDeadline with
  | some d => decide (d < nowMs)
  | none => false

/-- Disjunction of the seven per-criterion failure conditions: the
`isEligible` flag starts `true` and each failing block clears it, so
after the loop body it is the negation of this disjunction. -/
def failAnyB (p : NormProfile) (c : Criteria) : Bool :=
  cgpaFailB p c || eduFailB p c || fieldFailB p c || incomeFailB p c ||
    genderFailB p c || catFailB p c || ageFailB p c

/-- The result object pushed for one scholarship (lines 795-810):
`isEligible` is the flag after the seven blocks and the deadline check,
`matchPercentage` is
`Math.round((checks.filter(c => c.passed).length / checks.length) * 100)`. -/
def evaluate (p : NormProfile) (s : Scholarship) (nowMs : ℤ) : EligResult :=
  { scholarship := ⟨s.id, s.title⟩
    isEligible := !(failAnyB p s.eligibilityCriteria || expiredB s nowMs)
    deadlineStatus := if expiredB s nowMs then "Expired" else "Active"
    eligibilityChecks := checksOf p s.eligibilityCriteria
    matchPercentage :=
      mathRound ((((checksOf p s.eligibilityCriteria).filter
            (fun ch => ch.passed)).length : ℚ) /
          ((checksOf p s.eligibilityCriteria).length : ℚ) * 100) }

/-- Sort rank of a result under the comparator of lines 813-817: eligible
results sort strictly before ineligible ones. -/
def rankOf (r : EligResult) : ℕ := if r.isEligible then 0 else 1

/-- `keyLE a b` holds when the comparator `(a, b) => a elig & !b elig ?
-1 : !a elig & b elig ? 1 : b.matchPercentage - a.matchPercentage`
returns a value `≤ 0`, i.e. when a stable sort may keep `a` before `b`:
eligible-first, then match percentage descending. -/
def keyLE (a b : EligResult) : Prop :=
  rankOf a < rankOf b ∨ (rankOf a = rankOf b ∧ b.matchPercentage ≤ a.matchPercentage)

instance : DecidableRel keyLE := fun a b =>
  inferInstanceAs (Decidable (rankOf a < rankOf b ∨
    (rankOf a = rankOf b ∧ b.matchPercentage ≤ a.matchPercentage)))

instance : IsTotal EligResult keyLE where
  total a b := by
    unfold keyLE
    rcases lt_trichotomy (rankOf a) (rankOf b) with h | h | h
    · exact Or.inl (Or.inl h)
    · rcases le_total b.matchPercentage a.matchPercentage with h2 | h2
      · exact Or.inl (Or.inr ⟨h, h2⟩)
      · exact Or.inr (Or.inr ⟨h.symm, h2⟩)
    · exact Or.inr (Or.inl h)

instance : IsTrans EligResult keyLE where
  trans a b c hab hbc := by
    unfold keyLE at *
    rcases hab with h1 | ⟨h1, h1m⟩ <;> rcases hbc with h2 | ⟨h2, h2m⟩
    · exact Or.inl (h1.trans h2)
    · exact Or.inl (h2 ▸ h1)
    · exact Or.inl (h1 ▸ h2)
    · exact Or.inr ⟨h1.trans h2, h2m.trans h1m⟩

/-- `eligibilityResults.sort(comparator)` (lines 813-817).
`Array.prototype.sort` is required to be stable, and the comparator is
consistent (it corresponds to the total preorder `keyLE`), so the sorted
array is the unique stable `keyLE`-sorted permutation — which is what
insertion sort computes. -/
def rankSort (l : List EligResult) : List EligResult := List.insertionSort keyLE l

/-- The once-per-request profile normalization (lines 644-646):
`userAge = calculateAge(profile.dateOfBirth)`,
`userIncome = parseIncome(profile.familyIncome)`,
`userCgpa = parseFloat(profile.cgpa) || 0`. -/
def normalizeOf (p : Profile) (clock : Clock) : NormProfile :=
  { cgpa := JSNum.orZero (jsParseFloat p.cgpa)
    income := parseIncome p.familyIncome
    age := calculateAge p.dateOfBirth clock.today
    currentEducation := p.currentEducation
    fieldOfStudy := p.fieldOfStudy
    gender := p.gender
    category := p.category }

/-- The `userProfile` echo of the response (lines 824-833);
`profile.fullName || user.name` falls back on the empty string. -/
def snapshotOf (u : User) (p : Profile) (clock : Clock) : ProfileSnapshot :=
  { name := if p.fullName = "" then u.name else p.fullName
    cgpa := JSNum.orZero (jsParseFloat p.cgpa)
    education := p.currentEducation
    field := p.fieldOfStudy
    income := parseIncome p.familyIncome
    age := calculateAge p.dateOfBirth clock.today
    gender := p.gender
    category := p.category }

/-- The `/api/check-eligibility` route body (`server.js` lines 620-839):
the user lookup is modelled as an optional `User` input, the
`Scholarship.find({ isActive: true })` query as a filter over the input
scholarship list, and the system clock is injected.  The early return
`if (!user.profile?.isProfileComplete)` covers both a missing profile
and a cleared flag. -/
def checkEligibility (user : Option User) (scholarships : List Scholarship)
    (clock : Clock) : Response :=
  match user with
  | none => Response.error 404 "User not found"
  | some u =>
    match u.profile with
    | none =>
        Response.incomplete "Please complete your profile to check eligibility"
          [] true
    | some profile =>
      if profile.isProfileComplete then
        let np := normalizeOf profile clock
        let active := scholarships.filter (fun s => s.isActive)
        let sorted := rankSort (active.map (fun s => evaluate np s clock.nowMs))
        Response.ranked active.length
          (sorted.filter (fun r => r.isEligible)).length sorted
          (snapshotOf u profile clock)
      else
        Response.incomplete "Please complete your profile to check eligibility"
          [] true

/-- Spec-side: the claimed trace of criterion names — the subsequence of
the seven fixed names where CGPA, Family Income and Age always appear and
each optional criterion appears exactly when it is constrained. -/
def emittedTrace (c : Criteria) : List String :=
  ["CGPA"] ++
    (if c.requiredEducation ≠ [] then ["Education Level"] else []) ++
    (if c.requiredFields ≠ [] then ["Field of Study"] else []) ++
    ["Family Income"] ++
    (if c.allowedGenders ≠ [] ∧ ¬ c.allowedGenders.contains "All" = true
      then ["Gender"] else []) ++
    (if c.allowedCategories ≠ [] then ["Category"] else []) ++
    ["Age"]

/-- Spec-side: the current month/day precedes the birth month/day (the
birthday for the current year has not yet occurred). -/
def monthDayPrecedes (today b : SimpleDate) : Prop :=
  today.month < b.month ∨ (today.month = b.month ∧ today.day < b.day)

instance (today b : SimpleDate) : Decidable (monthDayPrecedes today b) :=
  inferInstanceAs (Decidable (_ ∨ _ ∧ _))

/-- Spec-side: the claimed ordering of the ranked output — an eligible
result never follows an ineligible one, and within a group of equal
eligibility the match percentage is non-increasing. -/
def specBefore (a b : EligResult) : Prop :=
  (a.isEligible = false → b.isEligible = false) ∧
    (a.isEligible = b.isEligible → b.matchPercentage ≤ a.matchPercentage)

/-- The sort key of a result: the pair the comparator consults. -/
def keyOf (r : EligResult) : Bool × ℤ := (r.isEligible, r.matchPercentage)

lemma cgpaCheckOf_passed (p : NormProfile) (c : Criteria) :
    (cgpaCheckOf p c).passed = !cgpaFailB p c := by
  unfold cgpaCheckOf; cases h : cgpaFailB p c <;> simp [h]

lemma incomeCheckOf_passed (p : NormProfile) (c : Criteria) :
    (incomeCheckOf p c).passed = !incomeFailB p c := by
  unfold incomeCheckOf; cases h : incomeFailB p c <;> simp [h]

lemma ageCheckOf_passed (p : NormProfile) (c : Criteria) :
    (ageCheckOf p c).passed = !ageFailB p c := by
  unfold ageCheckOf; cases h : ageFailB p c <;> simp [h]

lemma eduCheckOf_all (p : NormProfile) (c : Criteria) :
    (eduCheckOf p c).toList.all (fun ch => ch.passed) = !eduFailB p c := by
  unfold eduCheckOf
  cases h : eduFailB p c <;> cases h2 : eduCons c <;> simp [h, h2]

lemma fieldCheckOf_all (p : NormProfile) (c : Criteria) :
    (fieldCheckOf p c).toList.all (fun ch => ch.passed) = !fieldFailB p c := by
  unfold fieldCheckOf
  cases h : fieldFailB p c <;> cases h2 : fieldCons c <;> simp [h, h2]

lemma genderCheckOf_all (p : NormProfile) (c : Criteria) :
    (genderCheckOf p c).toList.all (fun ch => ch.passed) = !genderFailB p c := by
  unfold genderCheckOf
  cases h : genderFailB p c <;> cases h2 : genderCons c <;> simp [h, h2]

lemma catCheckOf_all (p : NormProfile) (c : Criteria) :
    (catCheckOf p c).toList.all (fun ch => ch.passed) = !catFailB p c := by
  unfold catCheckOf
  cases h : catFailB p c <;> cases h2 : catCons c <;> simp [h, h2]

/-- The conjunction of the emitted checks' outcomes is the negation of
the disjunction of the failure conditions. -/
lemma checksOf_all_passed (p : NormProfile) (c : Criteria) :
    (checksOf p c).all (fun ch => ch.passed) = !failAnyB p c := by
  simp only [checksOf, failAnyB, List.all_append, List.all_cons, List.all_nil,
    cgpaCheckOf_passed, incomeCheckOf_passed, ageCheckOf_passed,
    eduCheckOf_all, fieldCheckOf_all, genderCheckOf_all, catCheckOf_all,
    Bool.and_true, Bool.not_or]

lemma eduCheckOf_trace (p : NormProfile) (c : Criteria) :
    (eduCheckOf p c).toList.map Check.criterion =
      (if c.requiredEducation ≠ [] then ["Education Level"] else []) := by
  unfold eduCheckOf eduFailB eduCons
  cases h : c.requiredEducation.isEmpty <;>
    cases h2 : c.requiredEducation.contains p.currentEducation <;>
      simp_all [List.isEmpty_iff]

lemma fieldCheckOf_trace (p : NormProfile) (c : Criteria) :
    (fieldCheckOf p c).toList.map Check.criterion =
      (if c.requiredFields ≠ [] then ["Field of Study"] else []) := by
  unfold fieldCheckOf fieldFailB fieldCons
  cases h : c.requiredFields.isEmpty <;>
    cases h2 : c.requiredFields.contains p.fieldOfStudy <;>
      simp_all [List.isEmpty_iff]

lemma genderCheckOf_trace (p : NormProfile) (c : Criteria) :
    (genderCheckOf p c).toList.map Check.criterion =
      (if c.allowedGenders ≠ [] ∧ ¬ c.allowedGenders.contains "All" = true
        then ["Gender"] else []) := by
  unfold genderCheckOf genderFailB genderCons
  cases h : c.allowedGenders.isEmpty <;>
    cases h2 : c.allowedGenders.contains "All" <;>
      cases h3 : c.allowedGenders.contains p.gender <;>
        simp_all [List.isEmpty_iff]

lemma catCheckOf_trace (p : NormProfile) (c : Criteria) :
    (catCheckOf p c).toList.map Check.criterion =
      (if c.allowedCategories ≠ [] then ["Category"] else []) := by
  unfold catCheckOf catFailB catCons
  cases h : c.allowedCategories.isEmpty <;>
    cases h2 : c.allowedCategories.contains p.category <;>
      simp_all [List.isEmpty_iff]

/-- The sequence of criterion names emitted by the seven blocks is the
claimed fixed-order subsequence, for every profile. -/
lemma checksOf_trace (p : NormProfile) (c : Criteria) :
    (checksOf p c).map Check.criterion = emittedTrace c := by
  simp only [checksOf, emittedTrace, List.map_append, List.map_cons,
    List.map_nil, eduCheckOf_trace, fieldCheckOf_trace, genderCheckOf_trace,
    catCheckOf_trace, cgpaCheckOf, incomeCheckOf, ageCheckOf]
  cases h1 : cgpaFailB p c <;> cases h2 : incomeFailB p c <;>
    cases h3 : ageFailB p c <;> simp

lemma keyLE_of_keyOf_eq {a b : EligResult} (h : keyOf a = keyOf b) : keyLE a b := by
  unfold keyOf at h
  unfold keyLE rankOf
  have h1 : a.isEligible = b.isEligible := congrArg Prod.fst h
  have h2 : a.matchPercentage = b.matchPercentage := congrArg Prod.snd h
  rw [h1, h2]
  exact Or.inr ⟨rfl, le_refl _⟩

lemma membership_rankSort (a : EligResult) (l : List EligResult) :
    a ∈ rankSort l ↔ a ∈ l :=
  (List.perm_insertionSort keyLE l).mem_iff

lemma filter_orderedInsert_keyOf_eq (k : Bool × ℤ) (x : EligResult)
    (hx : keyOf x = k) (l : List EligResult) :
    (List.orderedInsert keyLE x l).filter (fun y => decide (keyOf y = k)) =
      x :: l.filter (fun y => decide (keyOf y = k)) := by
  induction l with
  | nil => simp [hx]
  | cons y ys ih =>
    by_cases hle : keyLE x y
    · simp [List.orderedInsert, hle, hx]
    · have hy : keyOf y ≠ k := by
        intro hk
        exact hle (keyLE_of_keyOf_eq (hx.trans hk.symm))
      simp [List.orderedInsert, hle, hy, ih]

lemma filter_orderedInsert_keyOf_ne (k : Bool × ℤ) (x : EligResult)
    (hx : keyOf x ≠ k) (l : List EligResult) :
    (List.orderedInsert keyLE x l).filter (fun y => decide (keyOf y = k)) =
      l.filter (fun y => decide (keyOf y = k)) := by
  induction l with
  | nil => simp [hx]
  | cons y ys ih =>
    by_cases hle : keyLE x y
    · simp [List.orderedInsert, hle, hx]
    · by_cases hy : keyOf y = k <;> simp [List.orderedInsert, hle, hy, ih]

/-- Stability of the ranking sort: for every value of the sort key, the
results carrying that key appear in the output in the same order (and
multiplicity) as in the input. -/
lemma filter_rankSort (l : List EligResult) (k : Bool × ℤ) :
    (rankSort l).filter (fun y => decide (keyOf y = k)) =
      l.filter (fun y => decide (keyOf y = k)) := by
  induction l with
  | nil => rfl
  | cons x xs ih =>
    unfold rankSort at ih ⊢
    show (List.orderedInsert keyLE x (List.insertionSort keyLE xs)).filter _ = _
    by_cases hx : keyOf x = k
    · rw [filter_orderedInsert_keyOf_eq k x hx, ih]
      simp [hx]
    · rw [filter_orderedInsert_keyOf_ne k x hx, ih]
      simp [hx]

lemma keyLE_implies_specBefore {a b : EligResult} (h : keyLE a b) :
    specBefore a b := by
  rcases h with h | ⟨h, hm⟩
  · unfold rankOf at h
    constructor
    · intro ha
      simp [ha] at h
      split at h <;> omega
    · intro he
      rw [he] at h
      simp at h
  · unfold rankOf at h
    constructor
    · intro ha
      rw [ha] at h
      by_cases hb : b.isEligible = false
      · exact hb
      · simp [Bool.not_eq_false] at hb
        simp [hb] at h
    · intro _
      exact hm

/-- The emitted check list always contains the three unconditional
checks, so its length is at least 3. -/
lemma checksOf_length (p : NormProfile) (c : Criteria) :
    3 ≤ (checksOf p c).length := by
  simp only [checksOf, List.length_append, List.length_cons, List.length_nil]
  omega

lemma mathRound_nonneg {q : ℚ} (h : 0 ≤ q) : 0 ≤ mathRound q := by
  unfold mathRound
  have : (0 : ℚ) ≤ q + 1 / 2 := by linarith
  exact_mod_cast Int.le_floor.mpr (by exact_mod_cast this)

lemma mathRound_le_100 {q : ℚ} (h : q ≤ 100) : mathRound q ≤ 100 := by
  unfold mathRound
  have : q + 1 / 2 < (101 : ℤ) := by push_cast; linarith
  have := Int.floor_lt.mpr this
  omega

/-- C1: for every normalized profile and scholarship, the evaluator's
result has `isEligible = true` iff every emitted check passed and the
deadline is not expired; and the emitted criterion trace does not depend
on the profile or on the clock (no short-circuit: every applicable check
is evaluated and reported even after an earlier failure, so the trace is
always complete). -/
theorem evaluate_isEligible_iff_all_passed (p p' : NormProfile)
    (s : Scholarship) (nowMs nowMs' : ℤ) :
    ((evaluate p s nowMs).isEligible = true ↔
      ((∀ ch ∈ (evaluate p s nowMs).eligibilityChecks, ch.passed = true) ∧
        (evaluate p s nowMs).deadlineStatus = "Active")) ∧
    (evaluate p s nowMs).eligibilityChecks.map Check.criterion =
      (evaluate p' s nowMs').eligibilityChecks.map Check.criterion := by
  constructor
  · cases hf : failAnyB p s.eligibilityCriteria <;>
      cases he : expiredB s nowMs <;>
        simp [evaluate, hf, he, ← List.all_eq_true, checksOf_all_passed]
  · simp [evaluate, checksOf_trace]

/-- C5: the check trace is exactly the fixed-order subsequence of
[CGPA, Education Level, Field of Study, Family Income, Gender, Category,
Age] where the three unconditional checks always appear and each optional
check appears exactly when its criterion is constrained (for Gender:
non-empty and not containing the literal "All"). -/
theorem evaluate_trace_eq_emitted (p : NormProfile) (s : Scholarship)
    (nowMs : ℤ) :
    (evaluate p s nowMs).eligibilityChecks.map Check.criterion =
      emittedTrace s.eligibilityCriteria := by
  simp [evaluate, checksOf_trace]

/-- C2: `matchPercentage` is `Math.round(100 · passed / emitted)`, and in
the degenerate zero-checks case it would equal 100 — an implication whose
antecedent never holds, since at least three checks are always emitted. -/
theorem evaluate_matchPercentage_spec (p : NormProfile) (s : Scholarship)
    (nowMs : ℤ) :
    (evaluate p s nowMs).matchPercentage =
      mathRound (100 *
        (((evaluate p s nowMs).eligibilityChecks.filter
            (fun ch => ch.passed)).length : ℚ) /
        ((evaluate p s nowMs).eligibilityChecks.length : ℚ)) ∧
    ((evaluate p s nowMs).eligibilityChecks.length = 0 →
      (evaluate p s nowMs).matchPercentage = 100) := by
  constructor
  · simp only [evaluate]
    congr 1
    ring
  · intro h
    have h3 := checksOf_length p s.eligibilityCriteria
    simp only [evaluate] at h
    omega

/-- C10: every evaluation emits at least the three unconditional checks,
so the match-percentage denominator is never zero and the result is an
integer between 0 and 100; the zero-checks degenerate case is
unreachable. -/
theorem evaluate_matchPercentage_bounds (p : NormProfile) (s : Scholarship)
    (nowMs : ℤ) :
    3 ≤ (evaluate p s nowMs).eligibilityChecks.length ∧
    0 ≤ (evaluate p s nowMs).matchPercentage ∧
    (evaluate p s nowMs).matchPercentage ≤ 100 := by
  have hlen := checksOf_length p s.eligibilityCriteria
  have hn : (0 : ℚ) < ((checksOf p s.eligibilityCriteria).length : ℚ) := by
    exact_mod_cast Nat.lt_of_lt_of_le (by norm_num) hlen
  have hp : (((checksOf p s.eligibilityCriteria).filter
      (fun ch => ch.passed)).length : ℚ) ≤
      ((checksOf p s.eligibilityCriteria).length : ℚ) := by
    exact_mod_cast List.length_filter_le _ _
  refine ⟨by simpa [evaluate] using hlen, ?_, ?_⟩
  · apply mathRound_nonneg
    positivity
  · apply mathRound_le_100
    show (((checksOf p s.eligibilityCriteria).filter
        (fun ch => ch.passed)).length : ℚ) /
        ((checksOf p s.eligibilityCriteria).length : ℚ) * 100 ≤ 100
    have h1 : (((checksOf p s.eligibilityCriteria).filter
        (fun ch => ch.passed)).length : ℚ) /
        ((checksOf p s.eligibilityCriteria).length : ℚ) ≤ 1 :=
      (div_le_one hn).mpr hp
    nlinarith

/-- Example result A of the ranking test: ineligible, match 90%. -/
def exA : EligResult := ⟨⟨1, "A"⟩, false, "Active", [], 90⟩

/-- Example result B of the ranking test: eligible, match 60%. -/
def exB : EligResult := ⟨⟨2, "B"⟩, true, "Active", [], 60⟩

/-- Example result C of the ranking test: eligible, match 80%. -/
def exC : EligResult := ⟨⟨3, "C"⟩, true, "Active", [], 80⟩

/-- C3: the ranking sort puts eligible results before ineligible ones with
match percentage descending within each group (`specBefore` holds
pairwise in output order), is stable (for each sort key, the results with
that key keep their input order), and on the example A (ineligible, 90),
B (eligible, 60), C (eligible, 80) produces [C, B, A]. -/
theorem rankSort_spec :
    (∀ l : List EligResult, List.Pairwise specBefore (rankSort l)) ∧
    (∀ (l : List EligResult) (k : Bool × ℤ),
      (rankSort l).filter (fun y => decide (keyOf y = k)) =
        l.filter (fun y => decide (keyOf y = k))) ∧
    rankSort [exA, exB, exC] = [exC, exB, exA] := by
  refine ⟨fun l => ?_, filter_rankSort, by decide⟩
  exact (List.sorted_insertionSort keyLE l).imp
    (fun h => keyLE_implies_specBefore h)

/-- C4: when the stored profile exists but is not complete, the route
returns the defined incomplete-profile shape — flag set, empty list, the
explanatory message — for every scholarship input (no scholarship is
evaluated: the right-hand side does not depend on the scholarship list),
and this is the `incomplete` response shape, not the `error` one. -/
theorem incompleteProfile_rank (u : User) (p : Profile)
    (schs : List Scholarship) (clock : Clock)
    (hp : u.profile = some p) (hc : p.isProfileComplete = false) :
    checkEligibility (some u) schs clock =
      Response.incomplete "Please complete your profile to check eligibility"
        [] true := by
  simp [checkEligibility, hp, hc]

/-- An incomplete profile used as a concrete witness. -/
def pInc : Profile := ⟨"", none, "", "", "", "", "", "", false⟩

/-- A user holding the incomplete profile. -/
def uInc : User := ⟨"U", some pInc⟩

/-- A concrete clock instant. -/
def clock0 : Clock := ⟨⟨2026, 0, 1⟩, 1767225600000⟩

/-- Witness for C4 at a concrete incomplete profile. -/
theorem incompleteProfile_rank_witness :
    uInc.profile = some pInc ∧ pInc.isProfileComplete = false ∧
    checkEligibility (some uInc) [] clock0 =
      Response.incomplete "Please complete your profile to check eligibility"
        [] true :=
  ⟨rfl, rfl, incompleteProfile_rank uInc pInc [] clock0 rfl rfl⟩

/-- C9: the age calculator returns 0 for an absent date of birth; else the
calendar-year difference, decremented exactly when the current month/day
precedes the birth month/day; a birth date exactly twenty years before
today gives 20, and one whose this-year birthday is one day away gives
19. -/
theorem calculateAge_spec :
    (∀ today : SimpleDate, calculateAge none today = 0) ∧
    (∀ (b today : SimpleDate),
      calculateAge (some b) today =
        if monthDayPrecedes today b then today.year - b.year - 1
        else today.year - b.year) ∧
    calculateAge (some ⟨2006, 6, 15⟩) ⟨2026, 6, 15⟩ = 20 ∧
    calculateAge (some ⟨2006, 6, 16⟩) ⟨2026, 6, 15⟩ = 19 := by
  refine ⟨fun _ => rfl, ?_, by decide, by decide⟩
  intro b t
  have hiff : (t.month - b.month < 0 ∨ (t.month - b.month = 0 ∧ t.day < b.day))
      ↔ monthDayPrecedes t b := by
    unfold monthDayPrecedes
    omega
  simp only [calculateAge]
  exact if_congr hiff rfl rfl

/-- C6: a scholarship whose deadline exists and is strictly before "now"
evaluates to `deadlineStatus = "Expired"` and `isEligible = false`
(whatever the per-criterion outcomes), and it is still evaluated and
included in the ranked candidate result set. -/
theorem deadline_expired_forces (u : User) (p : Profile)
    (schs : List Scholarship) (clock : Clock) (s : Scholarship) (d : ℤ)
    (hp : u.profile = some p) (hc : p.isProfileComplete = true)
    (hs : s ∈ schs) (ha : s.isActive = true)
    (hd : s.applicationDeadline = some d) (hlt : d < clock.nowMs) :
    (evaluate (normalizeOf p clock) s clock.nowMs).deadlineStatus = "Expired" ∧
    (evaluate (normalizeOf p clock) s clock.nowMs).isEligible = false ∧
    checkEligibility (some u) schs clock =
      Response.ranked (schs.filter (fun s2 => s2.isActive)).length
        (((rankSort ((schs.filter (fun s2 => s2.isActive)).map
            (fun s2 => evaluate (normalizeOf p clock) s2 clock.nowMs))).filter
          (fun r => r.isEligible)).length)
        (rankSort ((schs.filter (fun s2 => s2.isActive)).map
          (fun s2 => evaluate (normalizeOf p clock) s2 clock.nowMs)))
        (snapshotOf u p clock) ∧
    evaluate (normalizeOf p clock) s clock.nowMs ∈
      rankSort ((schs.filter (fun s2 => s2.isActive)).map
        (fun s2 => evaluate (normalizeOf p clock) s2 clock.nowMs)) := by
  have hexp : expiredB s clock.nowMs = true := by
    simp [expiredB, hd, hlt]
  refine ⟨by simp [evaluate, hexp], by simp [evaluate, hexp], ?_, ?_⟩
  · simp [checkEligibility, hp, hc]
  · rw [membership_rankSort]
    exact List.mem_map_of_mem _ (List.mem_filter.mpr ⟨hs, by simp [ha]⟩)

/-- A complete profile used as a concrete witness (all text fields empty:
they normalize to 0 / unset). -/
def pCompl : Profile := ⟨"N", none, "", "", "", "", "", "", true⟩

/-- A user holding the complete witness profile. -/
def uCompl : User := ⟨"U", some pCompl⟩

/-- A fully unconstrained, active scholarship whose deadline (epoch ms
`-5`) lies strictly before the witness clock instant `clock0`. -/
def sExpired : Scholarship :=
  ⟨7, "Expired Grant", ⟨0, 10, [], [], 999999999, 0, [], [], 0, 100, [], []⟩,
    some (-5), true⟩

/-- Witness for C6 at a concrete expired scholarship. -/
theorem deadline_expired_forces_witness :
    uCompl.profile = some pCompl ∧ pCompl.isProfileComplete = true ∧
    sExpired ∈ [sExpired] ∧ sExpired.isActive = true ∧
    sExpired.applicationDeadline = some (-5) ∧ (-5 : ℤ) < clock0.nowMs ∧
    (evaluate (normalizeOf pCompl clock0) sExpired clock0.nowMs).deadlineStatus
        = "Expired" ∧
    (evaluate (normalizeOf pCompl clock0) sExpired clock0.nowMs).isEligible
        = false ∧
    evaluate (normalizeOf pCompl clock0) sExpired clock0.nowMs ∈
      rankSort (([sExpired].filter (fun s2 => s2.isActive)).map
        (fun s2 => evaluate (normalizeOf pCompl clock0) s2 clock0.nowMs)) := by
  have h := deadline_expired_forces uCompl pCompl [sExpired] clock0 sExpired
    (-5) rfl rfl (List.mem_singleton.mpr rfl) rfl rfl (by decide)
  exact ⟨rfl, rfl, List.mem_singleton.mpr rfl, rfl, rfl, by decide,
    h.1, h.2.1, h.2.2.2⟩

/-- C7: the income normalizer's defined values — the mean of a numeric
range, the lakh and crore unit words, and 0 for the empty string. -/
theorem parseIncome_defined_values :
    parseIncome "300000-500000" = JSNum.fin 400000 ∧
    parseIncome "5 lakh" = JSNum.fin 500000 ∧
    parseIncome "2 crore" = JSNum.fin 20000000 ∧
    parseIncome "" = JSNum.fin 0 := by
  refine ⟨?_, ?_, ?_, ?_⟩ <;>
    (simp +decide [parseIncome, cleanIncome, jsParseFloatL, parseMantissa,
        parseExponent, digitsToNat, digVal, fracVal, JSNum.add, JSNum.half,
        JSNum.mulc, JSNum.orZero]) <;>
      norm_num

/-- Counterexample to C8: on the input "5-" the range branch parses the
empty right-hand side to `NaN`, and the returned value is `NaN` — a
number, but not a finite one (and not 0). -/
theorem parseIncome_nan_on_open_range :
    parseIncome "5-" = JSNum.nan ∧
    ¬ ∃ q : ℚ, parseIncome "5-" = JSNum.fin q := by
  have h : parseIncome "5-" = JSNum.nan := by
    simp +decide [parseIncome, cleanIncome, jsParseFloatL, parseMantissa,
      parseExponent, JSNum.add, JSNum.half]
  exact ⟨h, fun ⟨q, hq⟩ => by rw [h] at hq; exact JSNum.noConfusion hq⟩

/-- C8 (amended): the normalizer is total (never throws); whenever the
cleaned text reaches the direct-parse branch (no hyphen, no unit word)
and the parse fails, the result is the finite number 0 — but the range
and unit branches can return `NaN` on unparsable sides, so the result is
not finite on every input. -/
theorem parseIncome_plain_unparsable_zero (s : String)
    (h1 : (cleanIncome s).contains '-' = false)
    (h2 : containsSub ((cleanIncome s).map Char.toLower) "lakh".toList = false)
    (h3 : containsSub ((cleanIncome s).map Char.toLower) "crore".toList = false)
    (h4 : jsParseFloatL (cleanIncome s) = JSNum.nan) :
    parseIncome s = JSNum.fin 0 := by
  unfold parseIncome
  by_cases hs : s = ""
  · simp [hs]
  · simp at h1 h2 h3
    simp [hs, h1, h2, h3, h4, JSNum.orZero]

/-- Witness for the amended C8 at the unparsable plain input "abc". -/
theorem parseIncome_plain_unparsable_zero_witness :
    (cleanIncome "abc").contains '-' = false ∧
    containsSub ((cleanIncome "abc").map Char.toLower) "lakh".toList = false ∧
    containsSub ((cleanIncome "abc").map Char.toLower) "crore".toList = false ∧
    jsParseFloatL (cleanIncome "abc") = JSNum.nan ∧
    parseIncome "abc" = JSNum.fin 0 :=
  ⟨by decide, by decide, by decide, by decide,
    parseIncome_plain_unparsable_zero "abc" (by decide) (by decide)
      (by decide) (by decide)⟩
